import Mathlib

/-!
# Verification of the totter genetic-algorithm engine

Shallow embedding of `src/totter/evolution/GeneticAlgorithm.py` (class
`GeneticAlgorithm` and class `Individual`) and proofs about it.

Modelling conventions:
* Python floats are modelled as `Rat`; `None`-able fitness as `Option Rat`.
* The global `random` module is modelled as a deterministic stream of type
  `Nat` threaded through every consumer, seeded by `random.seed(n)` setting
  the stream state to `n`.  The concrete recurrence (`rngNext`) stands in
  for the Mersenne twister; only determinism of the stream matters to the
  properties proved here.
* The eight pluggable operator methods, the genome-to-phenotype translation
  and the external QWOP evaluation backend (`QwopEvaluator`, whose source is
  outside this repository) are collected in a `Strategy` record of
  deterministic functions; `qwop_evaluate` takes the simulator time limit
  and a phenotype and returns the first `(distance, run_time)` pair of
  `qwop_evaluator.evaluate(strategy)[0]`.
* Python exceptions (the `IndexError` raised by `self.population[0]` on an
  empty list) abort the operation; fallible operations return `Except`.
* Mutation of an `Individual` in place (`indv.fitness = ...`) is modelled by
  value updates; the engine never mutates an individual after `best_indv`
  has captured it with a set fitness, so value semantics is observationally
  faithful (see the comment at `warmList`).
* File-system state (checkpoint file, seed-cache file) is passed explicitly:
  a `load` takes an `Option Checkpoint`, `seed` takes the optional cache
  contents and returns the contents written.
-/

namespace Totter

/-- `class Individual` (GeneticAlgorithm.py lines 434-448): a genome plus an
optional fitness; `fitness = None` (here `none`) means not yet evaluated. -/
structure Individual (G : Type) where
  genome : G
  fitness : Option Rat
deriving DecidableEq, Repr

/-- Deterministic pseudo-random stream standing in for Python's globally
seeded `random` module.  `random.seed(n)` sets the state to `n`;
`random.random()` advances the state and yields a rational in `[0, 1)`.
The particular recurrence is irrelevant to every claim; only that the
stream is a deterministic function of the seed is used. -/
def rngNext (s : Nat) : Nat :=
  (6364136223846793005 * s + 1442695040888963407) % 2 ^ 64

/-- One `random.random()` draw: a rational in `[0, 1)` plus the new state. -/
def randFloat (s : Nat) : Rat × Nat :=
  let t := rngNext s
  (((t % 2 ^ 53 : Nat) : Rat) / ((2 ^ 53 : Nat) : Rat), t)

/-- The pluggable parts the engine calls but never implements: the eight
abstract operator methods of `GeneticAlgorithm` (lines 320-431) together
with the external evaluation backend.  `generate_random_genome` and
`select_parents` consume the global random stream (threaded explicitly);
`qwop_evaluate tl p` models `self.qwop_evaluator.evaluate(strategy)[0]`
returning the first `(distance, run_time)` pair, under simulator time
limit `tl` (the `QwopEvaluator` internals are outside `src/`; per the spec
the backend bounds execution by the configured time limit).  All functions
are deterministic, matching the determinism hypothesis of the spec. -/
structure Strategy (G P : Type) where
  generate_random_genome : Nat → G × Nat
  genome_to_phenotype : G → P
  qwop_evaluate : Int → P → Rat × Rat
  compute_fitness : Rat → Rat → Rat
  select_parents : List (Individual G) → Nat → Nat → List (Individual G) × Nat
  crossover : G → G → G × G
  mutate : G → G
  repair : G → G
  replace : List (Individual G) → Individual G → Option Nat

/-- One record of `self.history` (line 299): the list
`[self.generations, best_fitness, average_fitness]`. -/
structure HistEntry where
  gen : Nat
  best : Option Rat
  avg : Rat
deriving DecidableEq, Repr

/-- The mutable state of a `GeneticAlgorithm` object (fields assigned in
`__init__`, lines 24-55).  `evaluator_time_limit` is
`self.qwop_evaluator.time_limit` (set at line 36 and by `load`, line 178);
`sim_time_limit` is `self.qwop_evaluator.simulator.time_limit` (set
temporarily by `seed`, lines 210 and 229), the limit under which
evaluations run.  `rng` is the state of the global `random` stream.
`best_indv` is non-optional: line 55 sets it before `__init__` returns and
no later assignment stores `None`, so the transient `None` of line 47 is
unobservable. -/
structure GAState (G : Type) where
  random_seed : Nat
  eval_time_limit : Int
  evaluator_time_limit : Int
  sim_time_limit : Int
  pop_size : Nat
  cx_prob : Rat
  mt_prob : Rat
  steady_state : Bool
  total_evaluations : Nat
  generations : Nat
  max_evaluations : Int
  best_indv : Individual G
  history : List HistEntry
  population : List (Individual G)
  rng : Nat
deriving DecidableEq, Repr

variable {G P : Type}

/-- The list comprehension of line 54 (and line 212):
`[Individual(self.generate_random_genome()) for i in range(0, n)]`,
generating genomes left to right, each consuming the random stream. -/
def genRandomPop (strat : Strategy G P) : Nat → Nat → List (Individual G) × Nat
  | 0, rng => ([], rng)
  | n + 1, rng =>
      let gr := strat.generate_random_genome rng
      let rest := genRandomPop strat n gr.2
      (⟨gr.1, none⟩ :: rest.1, rest.2)

/-- `__init__` (lines 24-55): record the configuration, seed the RNG
(line 51), build a random population of `pop_size` individuals (line 54)
and set `best_indv` to its first member (line 55).  On an empty population
line 55 raises `IndexError`, aborting construction. -/
def initGA (strat : Strategy G P) (evaluations : Int) (eval_time_limit : Int)
    (pop_size : Nat) (cx_prob : Rat) (mt_prob : Rat) (steady_state : Bool)
    (seedv : Nat) : Except String (GAState G) :=
  let gen := genRandomPop strat pop_size seedv
  match gen.1 with
  | [] => .error ("IndexError: list index out of range")
  | p0 :: rest =>
      .ok
        { random_seed := seedv
          eval_time_limit := eval_time_limit
          evaluator_time_limit := eval_time_limit
          sim_time_limit := eval_time_limit
          pop_size := pop_size
          cx_prob := cx_prob
          mt_prob := mt_prob
          steady_state := steady_state
          total_evaluations := 0
          generations := 1
          max_evaluations := evaluations
          best_indv := p0
          history := []
          population := p0 :: rest
          rng := gen.2 }

/-- `_evaluate` (lines 305-318): translate the genome to a phenotype, run the
backend, assign `compute_fitness(distance, run_time)` to the individual's
fitness, and increment `total_evaluations` by one.  Returns the updated
individual together with the updated engine state. -/
def _evaluate (strat : Strategy G P) (s : GAState G) (individual : Individual G) :
    Individual G × GAState G :=
  let phenotype := strat.genome_to_phenotype individual.genome
  let dt := strat.qwop_evaluate s.sim_time_limit phenotype
  (⟨individual.genome, some (strat.compute_fitness dt.1 dt.2)⟩,
   { s with total_evaluations := s.total_evaluations + 1 })

/-- Python's `child.fitness > self.best_indv.fitness` on two optional
fitness values.  In Python a `None` operand raises `TypeError`; in every
state reachable from a successful construction both operands are set when
this comparison is executed (the warming pass of `run`, lines 248-252,
evaluates every unset fitness and the `is None` disjuncts guard the rest),
so the `false` returned here for a `None` operand is never observed. -/
def fitGtB : Option Rat → Option Rat → Bool
  | some x, some y => decide (y < x)
  | _, _ => false

/-- Non-strict counterpart of `fitGtB`, used only in specifications:
`none` compares below everything. -/
def fitLe : Option Rat → Option Rat → Prop
  | none, _ => True
  | some _, none => False
  | some x, some y => x ≤ y

/-- Lines 249-250: `if indv.fitness is None: self._evaluate(indv)` — one
individual of the warming pass, evaluated only when its fitness is unset. -/
def warmStep (strat : Strategy G P) (s : GAState G) (indv : Individual G) :
    Individual G × GAState G :=
  if indv.fitness.isNone then _evaluate strat s indv else (indv, s)

/-- Lines 251-252: `if self.best_indv.fitness is None or indv.fitness >
self.best_indv.fitness: self.best_indv = indv`. -/
def warmBest (best x : Individual G) : Individual G :=
  if best.fitness.isNone || fitGtB x.fitness best.fitness then x else best

/-- The warming pass of `run` (lines 248-252), processing the population
left to right: evaluate each individual whose fitness is unset, then update
`best_indv` when its fitness is unset or the individual's fitness is
strictly greater.  In Python the evaluation mutates the member in place and
`best_indv` may alias it; the only aliased-with-unset-fitness case that can
reach this loop is `best_indv` being `population[0]` with unset fitness
(fresh construction, or after `seed`), and there the `is None` disjunct
makes the value-passing result coincide with the aliased one. -/
def warmList (strat : Strategy G P) :
    List (Individual G) → Individual G → GAState G →
      List (Individual G) × Individual G × GAState G
  | [], best, s => ([], best, s)
  | indv :: rest, best, s =>
      let es := warmStep strat s indv
      let rest1 := warmList strat rest (warmBest best es.1) es.2
      (es.1 :: rest1.1, rest1.2.1, rest1.2.2)

/-- Lines 248-252 as a state transformer. -/
def warm (strat : Strategy G P) (s : GAState G) : GAState G :=
  let w := warmList strat s.population s.best_indv s
  { w.2.2 with population := w.1, best_indv := w.2.1 }

/-- Parent selection (lines 258-261): 2 parents in steady-state mode,
`pop_size` parents in generational mode. -/
def selectParents (strat : Strategy G P) (s : GAState G) :
    List (Individual G) × Nat :=
  if s.steady_state then strat.select_parents s.population 2 s.rng
  else strat.select_parents s.population s.pop_size s.rng

/-- `zip(parents[::2], parents[1::2])` (line 265): consecutive pairing; an
unpaired trailing parent is dropped. -/
def pairUp : List α → List (α × α)
  | a :: b :: rest => (a, b) :: pairUp rest
  | _ => []

/-- The crossover loop (lines 264-269): for each pair draw one
`random.random()`; when it is below `cx_prob`, crossover the two parent
genomes and append both child genomes. -/
def makeOffspring (strat : Strategy G P) (cx_prob : Rat) :
    List (Individual G × Individual G) → Nat → List G × Nat
  | [], rng => ([], rng)
  | pq :: rest, rng =>
      let r := randFloat rng
      if r.1 < cx_prob then
        let cc := strat.crossover pq.1.genome pq.2.genome
        let restOff := makeOffspring strat cx_prob rest r.2
        (cc.1 :: cc.2 :: restOff.1, restOff.2)
      else makeOffspring strat cx_prob rest r.2

/-- The mutation/repair/evaluation loop (lines 272-282): for each offspring
genome in order, draw one `random.random()` and mutate when it is below
`mt_prob`, always repair, wrap in a fresh `Individual`, and `_evaluate` it
(this is what advances `total_evaluations`). -/
def evalOffspring (strat : Strategy G P) :
    List G → GAState G → List (Individual G) × GAState G
  | [], s => ([], s)
  | g :: rest, s =>
      let r := randFloat s.rng
      let g1 := if r.1 < s.mt_prob then strat.mutate g else g
      let g2 := strat.repair g1
      let cs := _evaluate strat { s with rng := r.2 } ⟨g2, none⟩
      let rest1 := evalOffspring strat rest cs.2
      (cs.1 :: rest1.1, rest1.2)

/-- The best-individual update of lines 287-288:
`if self.best_indv is None or child.fitness > self.best_indv.fitness`.
`best_indv` is never `None` after `__init__` (line 55), so only the strict
fitness comparison matters: a tie keeps the current best. -/
def updateBest (best child : Individual G) : Individual G :=
  if fitGtB child.fitness best.fitness then child else best

/-- One pass of the replacement loop body (lines 286-293) for one child:
update the best individual, then ask `replace` for a slot index; `None`
discards the child, an index overwrites that population slot in place. -/
def processChild (strat : Strategy G P) (child : Individual G)
    (pop : List (Individual G)) (best : Individual G) :
    List (Individual G) × Individual G :=
  let best1 := updateBest best child
  let pop1 :=
    match strat.replace pop child with
    | some i => pop.set i child
    | none => pop
  (pop1, best1)

/-- The replacement loop (lines 285-293) over all children in order. -/
def applyChildren (strat : Strategy G P) :
    List (Individual G) → List (Individual G) → Individual G →
      List (Individual G) × Individual G
  | [], pop, best => (pop, best)
  | c :: cs, pop, best =>
      let pb := processChild strat c pop best
      applyChildren strat cs pb.1 pb.2

/-- Sum of the population's fitness values,
`sum(map(lambda indv: indv.fitness, self.population))` (line 298).  Python
would raise on an unset fitness; after warming every fitness is set, so the
`getD 0` default is never observed in a reachable recording state. -/
def fitnessSum (pop : List (Individual G)) : Rat :=
  (pop.map (fun i => i.fitness.getD 0)).sum

/-- The history-recording step (lines 296-299).  The guard
`if self.best_indv is not None` always holds (line 55 and every later
assignment store a real individual), so one entry
`[generation, best_fitness, average_fitness]` is appended per iteration. -/
def recordHistory (s : GAState G) : GAState G :=
  { s with
      history :=
        s.history ++
          [⟨s.generations, s.best_indv.fitness,
            fitnessSum s.population / ((s.population.length : Nat) : Rat)⟩] }

/-- One full iteration of the `while` body (lines 257-301): select parents,
build offspring genomes by crossover, mutate/repair/evaluate them, update
best individual and population by replacement, record one history entry,
and increment the generation counter. -/
def runIter (strat : Strategy G P) (s : GAState G) : GAState G :=
  let ps := selectParents strat s
  let offg := makeOffspring strat s.cx_prob (pairUp ps.1) ps.2
  let ev := evalOffspring strat offg.1 { s with rng := offg.2 }
  let pb := applyChildren strat ev.1 ev.2.population ev.2.best_indv
  let s2 := recordHistory { ev.2 with population := pb.1, best_indv := pb.2 }
  { s2 with generations := s2.generations + 1 }

/-- The `while self.total_evaluations < self.max_evaluations` loop
(line 256), fuel-indexed: with enough fuel the result is exactly the state
in which the Python loop returns.  The timer of lines 255/303 (wall-clock
time, the return value of `run`) is not modelled. -/
def runLoop (strat : Strategy G P) : Nat → GAState G → GAState G
  | 0, s => s
  | n + 1, s =>
      if (s.total_evaluations : Int) < s.max_evaluations then
        runLoop strat n (runIter strat s)
      else s

/-- `run` (lines 240-303): the warming pass followed by the budgeted loop. -/
def run (strat : Strategy G P) (fuel : Nat) (s : GAState G) : GAState G :=
  runLoop strat fuel (warm strat s)

/-- The `config` dictionary written by `save_current_state`
(lines 146-154); note `'evaluations'` stores the current
`self.max_evaluations`. -/
structure GAConfig where
  evaluations : Int
  eval_time_limit : Int
  pop_size : Nat
  cx_prob : Rat
  mt_prob : Rat
  steady_state : Bool
  seed : Nat
deriving DecidableEq, Repr

/-- The dictionary pickled by `save_current_state` (lines 140-156); the
class-name tag `'name'`, being fixed per strategy class, is omitted. -/
structure Checkpoint (G : Type) where
  population : List (Individual G)
  generations : Nat
  total_evaluations : Nat
  history : List HistEntry
  config : GAConfig
  best_individual : Individual G
deriving DecidableEq, Repr

/-- `save_current_state` (lines 131-159): serialize the full mutable state
as one snapshot (pickling is a deep copy, i.e. value capture). -/
def save_current_state (s : GAState G) : Checkpoint G :=
  { population := s.population
    generations := s.generations
    total_evaluations := s.total_evaluations
    history := s.history
    config :=
      { evaluations := s.max_evaluations
        eval_time_limit := s.eval_time_limit
        pop_size := s.pop_size
        cx_prob := s.cx_prob
        mt_prob := s.mt_prob
        steady_state := s.steady_state
        seed := s.random_seed }
    best_individual := s.best_indv }

/-- `load` (lines 161-189).  The argument `ck` is the contents of the
progress file, `none` when it does not exist.  With no file the state is
untouched and `False` is returned (line 189).  Otherwise every stored field
replaces the in-memory one; line 177 sets
`self.max_evaluations = data['total_evaluations'] + self.max_evaluations`,
adding the stored total to the loader's *current* budget; line 178 updates
`self.qwop_evaluator.time_limit` (not `self.eval_time_limit`, which keeps
its construction value); line 184 reseeds the random stream from the stored
seed. -/
def load (ck : Option (Checkpoint G)) (s : GAState G) : Bool × GAState G :=
  match ck with
  | none => (false, s)
  | some data =>
      (true,
       { s with
           population := data.population
           generations := data.generations
           total_evaluations := data.total_evaluations
           history := data.history
           max_evaluations := (data.total_evaluations : Int) + s.max_evaluations
           evaluator_time_limit := data.config.eval_time_limit
           pop_size := data.config.pop_size
           cx_prob := data.config.cx_prob
           mt_prob := data.config.mt_prob
           steady_state := data.config.steady_state
           random_seed := data.config.seed
           rng := data.config.seed
           best_indv := data.best_individual })

/-- The scoring loop of `seed` (lines 213-218): each pool member's fitness
is assigned the *raw distance* returned by the backend — not
`compute_fitness`, and not via `_evaluate`, so `total_evaluations` is not
touched.  `tl` is the simulator time limit in force (set at line 210). -/
def scorePool (strat : Strategy G P) (tl : Int)
    (pool : List (Individual G)) : List (Individual G) :=
  pool.map fun indv =>
    ⟨indv.genome,
     some (strat.qwop_evaluate tl (strat.genome_to_phenotype indv.genome)).1⟩

/-- Sort key of line 221: `key=lambda individual: -individual.fitness`.
Every pool member's fitness was just set by `scorePool`, so the `getD`
default is never observed. -/
def seedKey (i : Individual G) : Rat := -(i.fitness.getD 0)

/-- Stable insertion placing `x` after every element of equal key, matching
Python's stable `sorted` (ascending in `seedKey`, i.e. descending in raw
fitness). -/
def insertByKey (x : Individual G) : List (Individual G) → List (Individual G)
  | [] => [x]
  | y :: ys =>
      if seedKey y ≤ seedKey x then y :: insertByKey x ys
      else x :: y :: ys

/-- `sorted(pool, key=lambda individual: -individual.fitness)` (line 221). -/
def sortByKey : List (Individual G) → List (Individual G)
  | [] => []
  | x :: xs => insertByKey x (sortByKey xs)

/-- The fitness-reset loop of lines 236-238: every installed individual's
fitness is set back to `None`. -/
def resetFitness (pop : List (Individual G)) : List (Individual G) :=
  pop.map fun i => ⟨i.genome, none⟩

/-- Result of `seed`: the new engine state together with the contents of
the seed-cache file after the call. -/
structure SeedOutcome (G : Type) where
  state : GAState G
  file : List (Individual G)
deriving DecidableEq, Repr

/-- Lines 231-238: load the seeded population from the file, install it,
point `best_indv` at its first member (an empty file raises `IndexError`
at line 235), and reset every fitness to `None`.  In Python the reset of
line 238 also reaches `best_indv` through the alias to `population[0]`, so
the installed best has unset fitness. -/
def installSeeded (seeded_pop : List (Individual G)) (s : GAState G) :
    Except String (GAState G) :=
  match seeded_pop with
  | [] => .error ("IndexError: list index out of range")
  | p0 :: _ =>
      .ok { s with
              population := resetFitness seeded_pop
              best_indv := ⟨p0.genome, none⟩ }

/-- `seed` (lines 191-238).  `cache` is the contents of the seed file
`seed_{pop_size}.tsd` for this strategy, `none` when the file does not
exist.  With no cache: temporarily set the simulator time limit
(line 210), generate a pool of `pool_size` random individuals (line 212),
score each by raw distance (lines 213-218), sort descending (line 221),
slice `sorted_pool[:pool_size]` (line 223 — the slice bound is
`pool_size`, not `self.pop_size`), persist that list (lines 225-226) and
restore the time limit (line 229).  Either way the file contents are then
installed as the population with fitnesses reset (lines 231-238). -/
def seed (strat : Strategy G P) (pool_size : Nat) (time_limit : Int)
    (cache : Option (List (Individual G))) (s : GAState G) :
    Except String (SeedOutcome G) :=
  match cache with
  | some seeded_pop =>
      (installSeeded seeded_pop s).map fun st => ⟨st, seeded_pop⟩
  | none =>
      let pool := genRandomPop strat pool_size s.rng
      let scored := scorePool strat time_limit pool.1
      let sorted_pool := sortByKey scored
      let population := sorted_pool.take pool_size
      let s1 := { s with rng := pool.2, sim_time_limit := s.eval_time_limit }
      (installSeeded population s1).map fun st => ⟨st, population⟩

/-- The eight Operator Interface operations declared `@abstractmethod` in
`GeneticAlgorithm` (lines 320-431). -/
inductive OpName
  | generate_random_genome
  | genome_to_phenotype
  | compute_fitness
  | select_parents
  | crossover
  | mutate
  | repair
  | replace
deriving DecidableEq, Repr

/-- All eight operations. -/
def allOps : List OpName :=
  [.generate_random_genome, .genome_to_phenotype, .compute_fitness,
   .select_parents, .crossover, .mutate, .repair, .replace]

/-- Outcome of calling one strategy operation through Python method
dispatch: either the configuration error the spec demands for a missing
operation, or a returned value (`none` standing for Python `None`). -/
inductive OpCallResult (V : Type)
  | configError (msg : String)
  | returned (v : Option V)
deriving DecidableEq, Repr

/-- Line 23: `class GeneticAlgorithm(object)`.  The metaclass is plain
`type`, not `abc.ABCMeta`, so the `@abstractmethod` decorations carry no
enforcement: they only set `__isabstractmethod__` on the stubs. -/
def usesABCMeta : Bool := false

/-- Instantiating a concrete strategy class, where `overrides op` is the
value-producing implementation the subclass supplies for `op` (or `none`
when the subclass omits it).  `abc.ABCMeta.__call__` would raise
`TypeError` when any `@abstractmethod` remains un-overridden; with the
plain `type` metaclass of line 23 instantiation always succeeds. -/
def instantiateStrategy {V : Type} (overrides : OpName → Option V) :
    Except String (OpName → Option V) :=
  if usesABCMeta ∧ ¬ allOps.all (fun op => (overrides op).isSome) then
    .error ("TypeError: abstract methods not implemented")
  else .ok overrides

/-- Invoking operation `op` on an instantiated strategy.  Python attribute
lookup tries the subclass first and then the base class; the base class
always has the `@abstractmethod` stub, whose body is `pass` (lines 328,
341, 355, 369, 383, 396, 409, 431) and therefore returns `None` without
raising.  So a missing override is never a lookup failure: the stub's
`None` is silently returned. -/
def invokeOperation {V : Type} (overrides : OpName → Option V) (op : OpName) :
    OpCallResult V :=
  match overrides op with
  | some v => .returned (some v)
  | none => .returned none

/-- A concrete deterministic strategy over `Nat` genomes and phenotypes,
used to evaluate the engine at explicit inputs: the phenotype is the
genome, the backend reports the genome value as distance with run time 1,
and fitness is distance plus run time (so `compute_fitness` differs
visibly from the raw distance). -/
def exStrat : Strategy Nat Nat :=
  { generate_random_genome := fun rng => (rng % 10, rngNext rng)
    genome_to_phenotype := fun g => g
    qwop_evaluate := fun _tl p => ((p : Nat), 1)
    compute_fitness := fun d t => d + t
    select_parents := fun pop n rng =>
      ((List.range n).map fun i => pop.getD (i % pop.length) ⟨0, none⟩, rng)
    crossover := fun a b => (a, b)
    mutate := fun g => g
    repair := fun g => g
    replace := fun _ _ => none }

/-- Like `exStrat` but with a `replace` that always chooses slot 0, to
exercise replacement of the slot holding the best individual. -/
def replaceZeroStrat : Strategy Nat Nat :=
  { exStrat with replace := fun _ _ => some 0 }

/-- Fallback state used only to extract successful constructions from
`Except`. -/
def dummyState : GAState Nat :=
  { random_seed := 0
    eval_time_limit := 0
    evaluator_time_limit := 0
    sim_time_limit := 0
    pop_size := 0
    cx_prob := 0
    mt_prob := 0
    steady_state := true
    total_evaluations := 0
    generations := 1
    max_evaluations := 0
    best_indv := ⟨0, none⟩
    history := []
    population := []
    rng := 0 }

/-- A freshly constructed engine with `pop_size = 2` but an evaluation
budget of only 1: the warming pass alone exceeds the budget. -/
def smallBudgetState : GAState Nat :=
  (initGA exStrat 1 600 2 (9 / 10) (1 / 20) true 1234).toOption.getD dummyState

/-- A freshly constructed engine with `pop_size = 1` and budget 600. -/
def popOneState : GAState Nat :=
  (initGA exStrat 600 600 1 (9 / 10) (1 / 20) true 1234).toOption.getD dummyState

/-- `seed(pool_size=3, time_limit=60)` on the `pop_size = 1` engine with no
cached seed file. -/
def seedPoolThree : Except String (SeedOutcome Nat) :=
  seed exStrat 3 60 none popOneState

/-- `seed(pool_size=1, time_limit=60)` on the `pop_size = 1` engine with no
cached seed file. -/
def seedPoolOne : Except String (SeedOutcome Nat) :=
  seed exStrat 1 60 none popOneState

/-- A freshly constructed engine with budget 10 (`evaluations = 10`). -/
def budgetTenState : GAState Nat :=
  (initGA exStrat 10 600 1 (9 / 10) (1 / 20) true 1).toOption.getD dummyState

/-- A run state of the budget-10 engine after five evaluations have been
spent. -/
def spentFiveState : GAState Nat :=
  { budgetTenState with total_evaluations := 5 }

/-- The budget-10 engine after loading the checkpoint saved from
`spentFiveState`: `max_evaluations` becomes `5 + 10 = 15`. -/
def afterFirstLoad : GAState Nat :=
  (load (some (save_current_state spentFiveState)) budgetTenState).2

/-- `afterFirstLoad` after saving itself and loading that checkpoint
again: `max_evaluations` becomes `5 + 15 = 20`, not `5 + 10`. -/
def afterSecondLoad : GAState Nat :=
  (load (some (save_current_state afterFirstLoad)) afterFirstLoad).2

/-- A strategy table that overrides none of the eight operations. -/
def noOverrides : OpName → Option Nat := fun _ => none

/-- Number of population members the warming pass of `run` (lines 248-252)
evaluates: those whose fitness is unset. -/
def warmEvals (s : GAState G) : Nat :=
  (s.population.filter fun i => i.fitness.isNone).length

/-- The offspring genomes produced by one iteration entered in state `s`
(lines 258-269). -/
def iterOffspring (strat : Strategy G P) (s : GAState G) : List G :=
  (makeOffspring strat s.cx_prob (pairUp (selectParents strat s).1)
    (selectParents strat s).2).1

/-- Number of evaluations one iteration entered in state `s` performs:
one per offspring genome. -/
def iterEvals (strat : Strategy G P) (s : GAState G) : Nat :=
  (iterOffspring strat s).length

/-- Ordering between two history entries recorded by the same run: strictly
later generation, best fitness at least as large. -/
def entryLe (a b : HistEntry) : Prop := a.gen < b.gen ∧ fitLe a.best b.best

theorem fitLe_refl (a : Option Rat) : fitLe a a := by
  cases a <;> simp [fitLe]

theorem fitLe_trans {a b c : Option Rat} (h1 : fitLe a b) (h2 : fitLe b c) :
    fitLe a c := by
  cases a <;> cases b <;> cases c <;> simp_all [fitLe]
  exact le_trans h1 h2

theorem fitGtB_self (a : Option Rat) : fitGtB a a = false := by
  cases a <;> simp [fitGtB]

theorem fitLe_of_fitGtB {a b : Option Rat} (h : fitGtB a b = true) :
    fitLe b a := by
  cases a <;> cases b <;> simp_all [fitGtB, fitLe]
  exact le_of_lt h

/-- A tie never updates the best individual: line 287 uses a strict
comparison. -/
theorem updateBest_of_fitness_eq (best child : Individual G)
    (h : child.fitness = best.fitness) : updateBest best child = best := by
  unfold updateBest
  rw [h, fitGtB_self]
  simp

theorem updateBest_fitLe (best child : Individual G) :
    fitLe best.fitness (updateBest best child).fitness := by
  unfold updateBest
  by_cases h : fitGtB child.fitness best.fitness = true
  · rw [if_pos h]
    exact fitLe_of_fitGtB h
  · rw [if_neg h]
    exact fitLe_refl _

theorem get_set_self {α : Type} :
    ∀ (l : List α) (i : Nat) (a : α), i < l.length → (l.set i a).get? i = some a
  | _ :: _, 0, _, _ => rfl
  | _ :: xs, i + 1, a, h => get_set_self xs i a (by simpa using h)
  | [], _, _, h => absurd h (by simp)

theorem get?_some_lt {α : Type} :
    ∀ (l : List α) (i : Nat) (a : α), l.get? i = some a → i < l.length
  | _ :: _, 0, _, _ => by simp
  | _ :: xs, i + 1, a, h => by
      have := get?_some_lt xs i a (by simpa using h)
      simpa using this
  | [], i, a, h => by simp [List.get?] at h

theorem genRandomPop_length (strat : Strategy G P) :
    ∀ (n : Nat) (rng : Nat), (genRandomPop strat n rng).1.length = n
  | 0, _ => rfl
  | n + 1, rng => by
      simp [genRandomPop, genRandomPop_length strat n]

theorem processChild_length (strat : Strategy G P) (c : Individual G)
    (pop : List (Individual G)) (best : Individual G) :
    (processChild strat c pop best).1.length = pop.length := by
  unfold processChild
  cases strat.replace pop c <;> simp

theorem applyChildren_length (strat : Strategy G P) :
    ∀ (cs pop : List (Individual G)) (best : Individual G),
      (applyChildren strat cs pop best).1.length = pop.length
  | [], _, _ => rfl
  | c :: cs, pop, best => by
      simp only [applyChildren]
      rw [applyChildren_length strat cs]
      exact processChild_length strat c pop best

theorem applyChildren_fitLe (strat : Strategy G P) :
    ∀ (cs pop : List (Individual G)) (best : Individual G),
      fitLe best.fitness (applyChildren strat cs pop best).2.fitness
  | [], _, best => fitLe_refl _
  | c :: cs, pop, best => by
      simp only [applyChildren]
      exact fitLe_trans (updateBest_fitLe best c)
        (applyChildren_fitLe strat cs _ _)

/-- The evaluation loop over offspring advances `total_evaluations` by
exactly the number of offspring and touches no other progress field. -/
theorem evalOffspring_fields (strat : Strategy G P) :
    ∀ (gs : List G) (s : GAState G),
      (evalOffspring strat gs s).2.total_evaluations
          = s.total_evaluations + gs.length ∧
      (evalOffspring strat gs s).2.max_evaluations = s.max_evaluations ∧
      (evalOffspring strat gs s).2.history = s.history ∧
      (evalOffspring strat gs s).2.best_indv = s.best_indv ∧
      (evalOffspring strat gs s).2.population = s.population ∧
      (evalOffspring strat gs s).2.generations = s.generations
  | [], s => by simp [evalOffspring]
  | g :: rest, s => by
      have ih := evalOffspring_fields strat rest
        { s with rng := (randFloat s.rng).2,
                 total_evaluations := s.total_evaluations + 1 }
      simp only [evalOffspring, _evaluate] at ih ⊢
      refine ⟨?_, ih.2.1, ih.2.2.1, ih.2.2.2.1, ih.2.2.2.2.1, ih.2.2.2.2.2⟩
      rw [ih.1]
      simp [List.length_cons]
      omega

/-- One warming step changes nothing but `total_evaluations`, which grows
by one exactly when the individual's fitness was unset. -/
theorem warmStep_state (strat : Strategy G P) (s : GAState G)
    (indv : Individual G) :
    (warmStep strat s indv).2.total_evaluations
        = s.total_evaluations + (if indv.fitness.isNone then 1 else 0) ∧
    (warmStep strat s indv).2.max_evaluations = s.max_evaluations ∧
    (warmStep strat s indv).2.history = s.history ∧
    (warmStep strat s indv).2.generations = s.generations := by
  by_cases hf : indv.fitness.isNone <;> simp [warmStep, _evaluate, hf]

/-- The best-individual update of the warming pass never decreases the
best fitness. -/
theorem warmBest_fitLe (best x : Individual G) :
    fitLe best.fitness (warmBest best x).fitness := by
  unfold warmBest
  by_cases hb : (best.fitness.isNone || fitGtB x.fitness best.fitness) = true
  · rw [if_pos hb]
    rcases Bool.or_eq_true_iff.mp hb with hb1 | hb2
    · cases hbf : best.fitness with
      | none => simp [fitLe]
      | some v => rw [hbf] at hb1; simp at hb1
    · exact fitLe_of_fitGtB hb2
  · rw [if_neg hb]
    exact fitLe_refl _

/-- The warming pass evaluates exactly the unset-fitness members, preserves
the other progress fields and the population length, and never decreases
the best individual's fitness. -/
theorem warmList_fields (strat : Strategy G P) :
    ∀ (l : List (Individual G)) (best : Individual G) (s : GAState G),
      (warmList strat l best s).2.2.total_evaluations
          = s.total_evaluations + (l.filter fun i => i.fitness.isNone).length ∧
      (warmList strat l best s).2.2.max_evaluations = s.max_evaluations ∧
      (warmList strat l best s).2.2.history = s.history ∧
      (warmList strat l best s).2.2.generations = s.generations ∧
      (warmList strat l best s).1.length = l.length ∧
      fitLe best.fitness (warmList strat l best s).2.1.fitness
  | [], best, s => by simp [warmList, fitLe_refl]
  | indv :: rest, best, s => by
      have ih := warmList_fields strat rest
        (warmBest best (warmStep strat s indv).1) (warmStep strat s indv).2
      have hs := warmStep_state strat s indv
      simp only [warmList]
      refine ⟨?_, ?_, ?_, ?_, by simp [ih.2.2.2.2.1], ?_⟩
      · rw [ih.1, hs.1]
        by_cases hf : indv.fitness.isNone
        · simp only [List.filter_cons, hf, if_true, List.length_cons]
          omega
        · simp [List.filter_cons, hf]
      · rw [ih.2.1, hs.2.1]
      · rw [ih.2.2.1, hs.2.2.1]
      · rw [ih.2.2.2.1, hs.2.2.2]
      · exact fitLe_trans (warmBest_fitLe best _) ih.2.2.2.2.2

/-- Unfolding of one loop iteration into its stages. -/
theorem runIter_eq (strat : Strategy G P) (s : GAState G) :
    runIter strat s =
      (let ev := evalOffspring strat (iterOffspring strat s)
         { s with rng := (makeOffspring strat s.cx_prob
             (pairUp (selectParents strat s).1) (selectParents strat s).2).2 }
       let pb := applyChildren strat ev.1 ev.2.population ev.2.best_indv
       { ev.2 with
           population := pb.1
           best_indv := pb.2
           history := ev.2.history ++
             [⟨ev.2.generations, pb.2.fitness,
               fitnessSum pb.1 / ((pb.1.length : Nat) : Rat)⟩]
           generations := ev.2.generations + 1 }) := rfl

/-- One loop iteration advances `total_evaluations` by the number of
offspring it evaluated, preserves the budget and the population length,
increments the generation counter, never decreases the best fitness, and
appends exactly one history entry carrying the current generation and the
new best fitness. -/
theorem runIter_fields (strat : Strategy G P) (s : GAState G) :
    (runIter strat s).total_evaluations
        = s.total_evaluations + iterEvals strat s ∧
    (runIter strat s).max_evaluations = s.max_evaluations ∧
    (runIter strat s).generations = s.generations + 1 ∧
    (runIter strat s).population.length = s.population.length ∧
    fitLe s.best_indv.fitness (runIter strat s).best_indv.fitness ∧
    ∃ q : Rat, (runIter strat s).history
        = s.history ++ [⟨s.generations, (runIter strat s).best_indv.fitness, q⟩] := by
  rw [runIter_eq]
  simp only
  have hev := evalOffspring_fields strat (iterOffspring strat s)
    { s with rng := (makeOffspring strat s.cx_prob
        (pairUp (selectParents strat s).1) (selectParents strat s).2).2 }
  generalize hE : evalOffspring strat (iterOffspring strat s)
      { s with rng := (makeOffspring strat s.cx_prob
          (pairUp (selectParents strat s).1) (selectParents strat s).2).2 } = E
      at hev ⊢
  simp only at hev
  refine ⟨?_, ?_, ?_, ?_, ?_, ?_⟩
  · rw [hev.1]
    rfl
  · rw [hev.2.1]
  · rw [hev.2.2.2.2.2]
  · rw [applyChildren_length, hev.2.2.2.2.1]
  · rw [← hev.2.2.2.1]
    exact applyChildren_fitLe strat _ _ _
  · exact ⟨_, by rw [hev.2.2.1, hev.2.2.2.2.2]⟩

/-- The warming pass at the state level. -/
theorem warm_fields (strat : Strategy G P) (s : GAState G) :
    (warm strat s).total_evaluations = s.total_evaluations + warmEvals s ∧
    (warm strat s).max_evaluations = s.max_evaluations ∧
    (warm strat s).history = s.history ∧
    (warm strat s).generations = s.generations ∧
    (warm strat s).population.length = s.population.length ∧
    fitLe s.best_indv.fitness (warm strat s).best_indv.fitness := by
  have h := warmList_fields strat s.population s.best_indv s
  simp only [warm, warmEvals]
  exact ⟨h.1, h.2.1, h.2.2.1, h.2.2.2.1, h.2.2.2.2.1, h.2.2.2.2.2⟩

/-- When the budget check at the top of the loop fails, the loop exits at
once with the state untouched: no partial iteration is performed. -/
theorem runLoop_exit_now (strat : Strategy G P) (n : Nat) (t : GAState G)
    (h : t.max_evaluations ≤ (t.total_evaluations : Int)) :
    runLoop strat n t = t := by
  cases n with
  | zero => rfl
  | succ n => simp [runLoop, not_lt.mpr h]

/-- When the budget check passes, the whole iteration runs before the next
check: an in-progress iteration always completes. -/
theorem runLoop_step (strat : Strategy G P) (n : Nat) (t : GAState G)
    (h : (t.total_evaluations : Int) < t.max_evaluations) :
    runLoop strat (n + 1) t = runLoop strat n (runIter strat t) := by
  simp [runLoop, h]

/-- A loop whose final state has the budget exhausted either exited at the
very first check, or ends with one complete final iteration entered with
budget remaining. -/
theorem runLoop_last (strat : Strategy G P) :
    ∀ (n : Nat) (t : GAState G),
      (runLoop strat n t).max_evaluations
          ≤ ((runLoop strat n t).total_evaluations : Int) →
      (t.max_evaluations ≤ (t.total_evaluations : Int) ∧ runLoop strat n t = t) ∨
      ∃ u : GAState G, ((u.total_evaluations : Int) < u.max_evaluations) ∧
        runLoop strat n t = runIter strat u
  | 0, _, h => .inl ⟨h, rfl⟩
  | n + 1, t, h => by
      by_cases hc : (t.total_evaluations : Int) < t.max_evaluations
      · rw [runLoop_step strat n t hc] at h ⊢
        rcases runLoop_last strat n (runIter strat t) h with ⟨_, h2⟩ | ⟨u, hu1, hu2⟩
        · exact .inr ⟨t, hc, h2⟩
        · exact .inr ⟨u, hu1, hu2⟩
      · rw [runLoop_exit_now strat (n + 1) t (not_lt.mp hc)]
        exact .inl ⟨not_lt.mp hc, rfl⟩

/-- The loop preserves the budget and the population length. -/
theorem runLoop_fields (strat : Strategy G P) :
    ∀ (n : Nat) (t : GAState G),
      (runLoop strat n t).max_evaluations = t.max_evaluations ∧
      (runLoop strat n t).population.length = t.population.length
  | 0, _ => ⟨rfl, rfl⟩
  | n + 1, t => by
      by_cases hc : (t.total_evaluations : Int) < t.max_evaluations
      · rw [runLoop_step strat n t hc]
        have ih := runLoop_fields strat n (runIter strat t)
        have hf := runIter_fields strat t
        exact ⟨ih.1.trans hf.2.1, ih.2.trans hf.2.2.2.1⟩
      · rw [runLoop_exit_now strat (n + 1) t (not_lt.mp hc)]
        exact ⟨rfl, rfl⟩

/-- The history entries the loop appends are strictly increasing in
generation and non-decreasing in recorded best fitness, and the best
individual's fitness never decreases across the loop. -/
theorem runLoop_history (strat : Strategy G P) :
    ∀ (n : Nat) (t : GAState G),
      ∃ tail, (runLoop strat n t).history = t.history ++ tail ∧
        List.Pairwise entryLe tail ∧
        (∀ e ∈ tail, t.generations ≤ e.gen ∧ fitLe t.best_indv.fitness e.best) ∧
        t.generations ≤ (runLoop strat n t).generations ∧
        fitLe t.best_indv.fitness (runLoop strat n t).best_indv.fitness
  | 0, t => ⟨[], by simp [runLoop], .nil, by simp, le_refl _, fitLe_refl _⟩
  | n + 1, t => by
      by_cases hc : (t.total_evaluations : Int) < t.max_evaluations
      · rw [runLoop_step strat n t hc]
        obtain ⟨tail, hh, hp, hmem, hgen, hfit⟩ :=
          runLoop_history strat n (runIter strat t)
        obtain ⟨_, _, hgen1, _, hfit1, q, hhist⟩ := runIter_fields strat t
        refine ⟨⟨t.generations, (runIter strat t).best_indv.fitness, q⟩ :: tail,
          ?_, ?_, ?_, ?_, ?_⟩
        · rw [hh, hhist, List.append_assoc]
          rfl
        · refine List.Pairwise.cons (fun e he => ?_) hp
          have hm := hmem e he
          refine ⟨?_, hm.2⟩
          show t.generations < e.gen
          have : t.generations + 1 ≤ e.gen := by rw [← hgen1]; exact hm.1
          omega
        · intro e he
          rcases List.mem_cons.mp he with rfl | he2
          · exact ⟨le_refl _, hfit1⟩
          · have hm := hmem e he2
            constructor
            · have : t.generations + 1 ≤ e.gen := by rw [← hgen1]; exact hm.1
              omega
            · exact fitLe_trans hfit1 hm.2
        · calc t.generations ≤ t.generations + 1 := Nat.le_succ _
            _ = (runIter strat t).generations := hgen1.symm
            _ ≤ _ := hgen
        · exact fitLe_trans hfit1 hfit
      · rw [runLoop_exit_now strat (n + 1) t (not_lt.mp hc)]
        exact ⟨[], by simp, .nil, by simp, le_refl _, fitLe_refl _⟩

/-- `run` never changes the population length. -/
theorem run_population_length (strat : Strategy G P) (fuel : Nat)
    (s : GAState G) :
    (run strat fuel s).population.length = s.population.length := by
  unfold run
  exact (runLoop_fields strat fuel (warm strat s)).2.trans
    (warm_fields strat s).2.2.2.2.1

theorem mem_insertByKey (x : Individual G) :
    ∀ (l : List (Individual G)) (y : Individual G),
      y ∈ insertByKey x l → y = x ∨ y ∈ l
  | [], y, h => by
      simp [insertByKey] at h
      exact .inl h
  | z :: zs, y, h => by
      simp only [insertByKey] at h
      by_cases hk : seedKey z ≤ seedKey x
      · rw [if_pos hk] at h
        rcases List.mem_cons.mp h with rfl | h2
        · exact .inr (List.mem_cons_self _ _)
        · rcases mem_insertByKey x zs y h2 with h3 | h3
          · exact .inl h3
          · exact .inr (List.mem_cons_of_mem _ h3)
      · rw [if_neg hk] at h
        rcases List.mem_cons.mp h with rfl | h2
        · exact .inl rfl
        · exact .inr h2

theorem mem_sortByKey :
    ∀ (l : List (Individual G)) (y : Individual G), y ∈ sortByKey l → y ∈ l
  | [], y, h => by simp [sortByKey] at h
  | z :: zs, y, h => by
      simp only [sortByKey] at h
      rcases mem_insertByKey z (sortByKey zs) y h with rfl | h2
      · exact List.mem_cons_self _ _
      · exact List.mem_cons_of_mem _ (mem_sortByKey zs y h2)

/-- Every individual the seed scoring pass produces carries the raw
distance of the backend as its fitness — not `compute_fitness`. -/
theorem scorePool_fitness (strat : Strategy G P) (tl : Int)
    (pool : List (Individual G)) :
    ∀ i ∈ scorePool strat tl pool,
      i.fitness
        = some (strat.qwop_evaluate tl (strat.genome_to_phenotype i.genome)).1 := by
  intro i hi
  simp only [scorePool, List.mem_map] at hi
  obtain ⟨a, _, rfl⟩ := hi
  rfl

theorem except_map_ok {α β : Type} (f : α → β) (e : Except String α) (b : β)
    (h : e.map f = .ok b) : ∃ a, e = .ok a ∧ b = f a := by
  cases e with
  | error msg => simp [Except.map] at h
  | ok a =>
      refine ⟨a, rfl, ?_⟩
      simp [Except.map] at h
      exact h.symm

theorem installSeeded_total (pop : List (Individual G)) (s st : GAState G)
    (h : installSeeded pop s = .ok st) :
    st.total_evaluations = s.total_evaluations := by
  cases pop with
  | nil => simp [installSeeded] at h
  | cons p0 rest =>
      simp only [installSeeded] at h
      cases h
      rfl

/-- `seed` never touches `total_evaluations`: its scoring pass assigns
fitness directly (line 218) instead of calling `_evaluate`. -/
theorem seed_total (strat : Strategy G P) (pool_size : Nat) (time_limit : Int)
    (cache : Option (List (Individual G))) (s : GAState G) (out : SeedOutcome G)
    (h : seed strat pool_size time_limit cache s = .ok out) :
    out.state.total_evaluations = s.total_evaluations := by
  cases cache with
  | some pop =>
      simp only [seed] at h
      obtain ⟨st, hst, hout⟩ := except_map_ok _ _ _ h
      rw [hout]
      exact installSeeded_total pop s st hst
  | none =>
      simp only [seed] at h
      obtain ⟨st, hst, hout⟩ := except_map_ok _ _ _ h
      rw [hout]
      show st.total_evaluations = s.total_evaluations
      rw [installSeeded_total _ _ st hst]

/-- With no cached seed file, the list `seed` persists is
`sorted_pool[:pool_size]` — the slice bound of line 223. -/
theorem seed_none_file (strat : Strategy G P) (pool_size : Nat)
    (time_limit : Int) (s : GAState G) (out : SeedOutcome G)
    (h : seed strat pool_size time_limit none s = .ok out) :
    out.file = (sortByKey (scorePool strat time_limit
        (genRandomPop strat pool_size s.rng).1)).take pool_size := by
  simp only [seed] at h
  obtain ⟨st, _, hout⟩ := except_map_ok _ _ _ h
  rw [hout]

/-- C1 (amended): the `while` loop of `run` exits exactly on the
top-of-iteration budget check and never stops mid-iteration; on a
terminated run either the loop body never ran — the warming pass alone,
which re-evaluates every unset-fitness individual, already pushed the total
past the budget — or the run ends with one complete final iteration
entered with budget remaining, so the total exceeds the budget by at most
that iteration's offspring count. -/
theorem run_budget_termination (strat : Strategy G P) (fuel : Nat)
    (s : GAState G)
    (hdone : (run strat fuel s).max_evaluations
        ≤ ((run strat fuel s).total_evaluations : Int)) :
    ((warm strat s).max_evaluations
        ≤ ((warm strat s).total_evaluations : Int) ∧
      run strat fuel s = warm strat s ∧
      (warm strat s).total_evaluations
        = s.total_evaluations + warmEvals s) ∨
    ∃ u : GAState G, ((u.total_evaluations : Int) < u.max_evaluations) ∧
      run strat fuel s = runIter strat u ∧
      (runIter strat u).total_evaluations
        = u.total_evaluations + iterEvals strat u ∧
      ((runIter strat u).total_evaluations : Int)
        ≤ (runIter strat u).max_evaluations + iterEvals strat u := by
  unfold run at hdone ⊢
  rcases runLoop_last strat fuel (warm strat s) hdone with ⟨h1, h2⟩ | ⟨u, hu, he⟩
  · exact .inl ⟨h1, h2, (warm_fields strat s).1⟩
  · refine .inr ⟨u, hu, he, (runIter_fields strat u).1, ?_⟩
    rw [(runIter_fields strat u).1, (runIter_fields strat u).2.1]
    push_cast
    omega

/-- Witness for C1 at a concrete input: the small-budget engine terminates
with the warming pass alone. -/
theorem run_budget_termination_witness :
    ((warm exStrat smallBudgetState).max_evaluations
        ≤ ((warm exStrat smallBudgetState).total_evaluations : Int) ∧
      run exStrat 5 smallBudgetState = warm exStrat smallBudgetState ∧
      (warm exStrat smallBudgetState).total_evaluations
        = smallBudgetState.total_evaluations + warmEvals smallBudgetState) ∨
    ∃ u : GAState Nat, ((u.total_evaluations : Int) < u.max_evaluations) ∧
      run exStrat 5 smallBudgetState = runIter exStrat u ∧
      (runIter exStrat u).total_evaluations
        = u.total_evaluations + iterEvals exStrat u ∧
      ((runIter exStrat u).total_evaluations : Int)
        ≤ (runIter exStrat u).max_evaluations + iterEvals exStrat u :=
  run_budget_termination exStrat 5 smallBudgetState (by decide)

/-- C1 counterexample to the claim as stated: with `pop_size = 2` and
`evaluations = 1`, `run` returns with `total_evaluations = 2`, exceeding
the budget of 1, although the loop performed zero iterations (empty
history, final state equal to the warmed state) and hence zero offspring
were evaluated in any iteration. -/
theorem warming_overshoot_counterexample :
    smallBudgetState.max_evaluations = 1 ∧
    (run exStrat 5 smallBudgetState).total_evaluations = 2 ∧
    run exStrat 5 smallBudgetState = warm exStrat smallBudgetState ∧
    (run exStrat 5 smallBudgetState).history = [] :=
  ⟨rfl, rfl, rfl, rfl⟩

/-- C2: evaluation of the code at the failing input — an engine with
`pop_size = 1` whose `seed(pool_size=3)` call leaves the population with
length 3, because line 223 slices `sorted_pool[:pool_size]` instead of
`[:self.pop_size]`, contradicting the method's own docstring. -/
theorem seed_breaks_population_size_invariant :
    popOneState.pop_size = 1 ∧
    (seedPoolThree.map fun o => (o.state.population.length, o.state.pop_size))
      = .ok (3, 1) :=
  ⟨rfl, rfl⟩

/-- C3: every `run` call appends to the existing history a block of
entries with strictly increasing generations and non-decreasing best
fitness, and a child whose fitness ties the current best never replaces
it (line 287 compares strictly). -/
theorem run_history_monotone (strat : Strategy G P) (fuel : Nat)
    (s : GAState G) :
    (∃ tail, (run strat fuel s).history = s.history ++ tail ∧
      List.Pairwise entryLe tail) ∧
    ∀ best child : Individual G,
      child.fitness = best.fitness → updateBest best child = best := by
  constructor
  · obtain ⟨tail, hh, hp, _⟩ := runLoop_history strat fuel (warm strat s)
    refine ⟨tail, ?_, hp⟩
    unfold run
    rw [hh, (warm_fields strat s).2.2.1]
  · exact fun best child h => updateBest_of_fitness_eq best child h

/-- Witness for C3: a tie leaves the best individual unchanged at a
concrete input. -/
theorem run_history_monotone_witness :
    updateBest (G := Nat) ⟨0, some 5⟩ ⟨1, some 5⟩ = ⟨0, some 5⟩ :=
  (run_history_monotone exStrat 0 smallBudgetState).2 ⟨0, some 5⟩ ⟨1, some 5⟩ rfl

/-- C4: two engines constructed with identical seed, configuration, and
(deterministic) operator implementations produce identical histories and
identical final best genomes; the random stream is a deterministic
function of the stored seed. -/
theorem run_deterministic (strat : Strategy G P) (ev etl : Int) (ps : Nat)
    (cx mt : Rat) (st : Bool) (sd : Nat) (fuel : Nat) (s1 s2 : GAState G)
    (h1 : initGA strat ev etl ps cx mt st sd = .ok s1)
    (h2 : initGA strat ev etl ps cx mt st sd = .ok s2) :
    (run strat fuel s1).history = (run strat fuel s2).history ∧
    (run strat fuel s1).best_indv.genome
      = (run strat fuel s2).best_indv.genome := by
  rw [h1] at h2
  cases h2
  exact ⟨rfl, rfl⟩

/-- Witness for C4 at a concrete construction. -/
theorem run_deterministic_witness :
    (run exStrat 3 smallBudgetState).history
        = (run exStrat 3 smallBudgetState).history ∧
    (run exStrat 3 smallBudgetState).best_indv.genome
        = (run exStrat 3 smallBudgetState).best_indv.genome :=
  run_deterministic exStrat 1 600 2 (9 / 10) (1 / 20) true 1234 3
    smallBudgetState smallBudgetState rfl rfl

/-- C5 (amended): loading the checkpoint saved from state `s` reproduces
`population`, `generations`, `total_evaluations` and `history` by (deep)
equality and sets `max_evaluations` to the stored `total_evaluations` plus
the *loading instance's current* `max_evaluations` (line 177) — which
equals the construction-time value only when `max_evaluations` has not
been changed since construction (for example by an earlier `load`);
loading with no checkpoint file reports failure and leaves the state
untouched. -/
theorem checkpoint_roundtrip_current_budget (s t : GAState G) :
    (load (some (save_current_state s)) t).1 = true ∧
    (load (some (save_current_state s)) t).2.population = s.population ∧
    (load (some (save_current_state s)) t).2.generations = s.generations ∧
    (load (some (save_current_state s)) t).2.total_evaluations
        = s.total_evaluations ∧
    (load (some (save_current_state s)) t).2.history = s.history ∧
    (load (some (save_current_state s)) t).2.max_evaluations
        = (s.total_evaluations : Int) + t.max_evaluations ∧
    load none t = (false, t) :=
  ⟨rfl, rfl, rfl, rfl, rfl, rfl, rfl⟩

/-- C5 counterexample to the claim as stated: a second save/load cycle on
an engine constructed with `evaluations = 10` yields
`max_evaluations = 20`, not `total_evaluations + 10 = 15`: line 177 adds
the loader's current budget, not the construction-time budget. -/
theorem double_load_budget_counterexample :
    budgetTenState.max_evaluations = 10 ∧
    afterFirstLoad.total_evaluations = 5 ∧
    afterFirstLoad.max_evaluations = 15 ∧
    afterSecondLoad
      = (load (some (save_current_state afterFirstLoad)) afterFirstLoad).2 ∧
    afterSecondLoad.max_evaluations = 20 ∧
    (afterFirstLoad.total_evaluations : Int) + budgetTenState.max_evaluations
      ≠ afterSecondLoad.max_evaluations :=
  ⟨rfl, rfl, rfl, rfl, rfl, by decide⟩

/-- C6: evaluation of the code at the failing input — a concrete strategy
class that overrides none of the eight operations still instantiates
(line 23 gives the class the plain `type` metaclass, so `@abstractmethod`
is inert) and invoking a missing operation returns `None` silently instead
of raising a configuration error. -/
theorem missing_operation_silently_returns_none :
    instantiateStrategy noOverrides = .ok noOverrides ∧
    invokeOperation noOverrides OpName.generate_random_genome
      = .returned none ∧
    ∀ msg : String,
      invokeOperation noOverrides OpName.generate_random_genome
        ≠ OpCallResult.configError msg := by
  refine ⟨?_, rfl, fun msg h => OpCallResult.noConfusion h⟩
  rfl

/-- C7: evaluation of the code at the failing input — with `pop_size = 1`
and `pool_size = 3`, `seed` persists all three pool individuals (sorted
descending by raw distance, each carrying the raw distance as fitness),
not the top `pop_size = 1`: line 223 slices `sorted_pool[:pool_size]`. -/
theorem seed_persists_entire_pool :
    popOneState.pop_size = 1 ∧
    (seedPoolThree.map fun o =>
        (o.file.length, o.file.map fun i => (i.genome, i.fitness)))
      = .ok (3, [(7, some 7), (3, some 3), (0, some 0)]) :=
  ⟨rfl, rfl⟩

/-- C8 (amended): `_evaluate` assigns `compute_fitness(distance, run_time)`
to the individual and increments `total_evaluations` by exactly one, and
it is the only path advancing `total_evaluations` — in particular `seed`
leaves the counter unchanged; but `seed`'s pool-scoring pass (line 218) is
a second path that sets an individual's fitness, assigning the raw
distance directly without `_evaluate` and without `compute_fitness`. -/
theorem evaluation_adapter_contract (strat : Strategy G P) (s : GAState G)
    (individual : Individual G) (pool_size : Nat) (time_limit : Int)
    (cache : Option (List (Individual G))) (out : SeedOutcome G) :
    ((_evaluate strat s individual).1.fitness
        = some (strat.compute_fitness
            (strat.qwop_evaluate s.sim_time_limit
              (strat.genome_to_phenotype individual.genome)).1
            (strat.qwop_evaluate s.sim_time_limit
              (strat.genome_to_phenotype individual.genome)).2) ∧
      (_evaluate strat s individual).2.total_evaluations
        = s.total_evaluations + 1) ∧
    (seed strat pool_size time_limit cache s = .ok out →
      out.state.total_evaluations = s.total_evaluations) ∧
    (seed strat pool_size time_limit none s = .ok out →
      ∀ i ∈ out.file, i.fitness
        = some (strat.qwop_evaluate time_limit
            (strat.genome_to_phenotype i.genome)).1) := by
  refine ⟨⟨rfl, rfl⟩,
    fun h => seed_total strat pool_size time_limit cache s out h,
    fun h i hi => ?_⟩
  rw [seed_none_file strat pool_size time_limit s out h] at hi
  exact scorePool_fitness strat time_limit _ i
    (mem_sortByKey _ i (List.take_subset _ _ hi))

/-- The outcome of the concrete `seed(pool_size=1)` call. -/
def seedPoolOneOutcome : SeedOutcome Nat :=
  seedPoolOne.toOption.getD ⟨dummyState, []⟩

/-- Witness for C8 at a concrete input. -/
theorem evaluation_adapter_contract_witness :
    (_evaluate exStrat popOneState ⟨7, none⟩).2.total_evaluations
        = popOneState.total_evaluations + 1 ∧
    seedPoolOneOutcome.state.total_evaluations
        = popOneState.total_evaluations := by
  have h := evaluation_adapter_contract exStrat popOneState ⟨7, none⟩ 1 60
    none seedPoolOneOutcome
  exact ⟨h.1.2, h.2.1 rfl⟩

/-- C8 counterexample to the claim as stated: during `seed` a pool
individual's fitness transitions from unset to set (to the raw distance 7)
while `total_evaluations` stays 0 — so `_evaluate`, which would have
produced `compute_fitness 7 1 = 8` and incremented the counter, is not the
only unset-to-set path. -/
theorem seed_sets_fitness_without_evaluate :
    (seedPoolOne.map fun o =>
        (o.state.total_evaluations,
         o.file.map fun i => (i.genome, i.fitness)))
      = .ok (0, [(7, some 7)]) ∧
    exStrat.compute_fitness 7 1 = 8 ∧ some (7 : Rat) ≠ some (8 : Rat) :=
  ⟨rfl, by norm_num [exStrat], by norm_num⟩

/-- C9: an empty population is impossible: construction with `pop_size = 0`
aborts at population-initialization time (line 55 indexes `population[0]`),
and a successful construction yields a population of length `pop_size > 0`
which `run` preserves, so the mean-fitness division of line 298 always has
a positive denominator. -/
theorem empty_population_guarded (strat : Strategy G P) (ev etl : Int)
    (ps : Nat) (cx mt : Rat) (st : Bool) (sd : Nat) :
    (ps = 0 → initGA strat ev etl ps cx mt st sd
        = .error ("IndexError: list index out of range")) ∧
    ∀ s : GAState G, initGA strat ev etl ps cx mt st sd = .ok s →
      s.population.length = ps ∧ 0 < s.population.length ∧
      ∀ fuel : Nat, 0 < (run strat fuel s).population.length := by
  constructor
  · intro hps
    subst hps
    rfl
  · intro s h
    simp only [initGA] at h
    have hlen := genRandomPop_length strat ps sd
    split at h
    · exact absurd h (by simp)
    · next p0 rest hm =>
        rw [hm] at hlen
        cases h
        refine ⟨hlen, by simp, fun fuel => ?_⟩
        rw [run_population_length]
        simp

/-- Witness for C9 at a concrete construction. -/
theorem empty_population_guarded_witness :
    smallBudgetState.population.length = 2 ∧
    0 < (run exStrat 5 smallBudgetState).population.length := by
  obtain ⟨h1, _, h3⟩ :=
    (empty_population_guarded exStrat 1 600 2 (9 / 10) (1 / 20) true 1234).2
      smallBudgetState rfl
  exact ⟨h1, h3 5⟩

/-- C10: `best_indv` is an independent reference, not a population slot:
when `replace` returns the index of the slot holding the individual equal
to the current best and the child has strictly lower fitness, the slot is
overwritten with the child while `best_indv` survives unchanged, and the
history entry recorded later in the iteration takes its best fitness from
`best_indv`, not from the population. -/
theorem best_indv_reference_independent (strat : Strategy G P)
    (pop : List (Individual G)) (best child : Individual G) (i : Nat)
    (w v : Rat) (hrep : strat.replace pop child = some i)
    (hslot : pop.get? i = some best) (hcf : child.fitness = some w)
    (hbf : best.fitness = some v) (hlt : w < v) :
    processChild strat child pop best = (pop.set i child, best) ∧
    (pop.set i child).get? i = some child ∧
    ∀ t : GAState G, t.best_indv = best →
      (recordHistory t).history
        = t.history ++ [⟨t.generations, some v,
            fitnessSum t.population / ((t.population.length : Nat) : Rat)⟩] := by
  have hub : updateBest best child = best := by
    unfold updateBest
    rw [hcf, hbf]
    simp [fitGtB, lt_asymm hlt]
  refine ⟨?_, get_set_self pop i child (get?_some_lt pop i best hslot),
    fun t ht => ?_⟩
  · simp only [processChild, hrep, hub]
  · simp [recordHistory, ht, hbf]

/-- Witness for C10 at a concrete input. -/
theorem best_indv_reference_independent_witness :
    processChild replaceZeroStrat ⟨3, some 3⟩ [⟨5, some 5⟩] ⟨5, some 5⟩
      = ([⟨3, some 3⟩], ⟨5, some 5⟩) := by
  have h := best_indv_reference_independent replaceZeroStrat
    [⟨5, some 5⟩] ⟨5, some 5⟩ ⟨3, some 3⟩ 0 3 5 rfl rfl rfl rfl (by norm_num)
  simpa using h.1

end Totter
